import Mathlib

/-!
A verification development for the AvData repository: a shallow embedding of
its fixed-width FAA-facility parser (`AeroData.parseAirports` /
`AvData.__parse_airports`), its sexagesimal coordinate converter
(`convertToDeg` / `__convert_to_deg`) and its geodesic nearest-airport query
engine (`AeroData.nearestApts` / `AvData.nearest_airports`), together with
theorems settling the specification's claims about them.

Numbers are modelled with `ℚ` (the source works with Python ints and floats;
the properties proved here are exact-arithmetic properties of the formulas
the source computes).  The external geodesic solver `pyproj.Geod.inv` is
modelled as an explicit function argument, since its WGS84 mathematics lives
outside the repository; everything the repository itself does with the
solver's output is embedded faithfully.
-/

/-! ## Python string primitives used by the source -/

/-- Python's notion of whitespace for `str.strip` and friends. -/
def pyIsSpace (c : Char) : Bool :=
  c == ' ' || c == '\t' || c == '\n' || c == '\r' || c == '\x0b' || c == '\x0c'

/-- Python slicing `s[a:b]` for `0 ≤ a ≤ b` (clamped at the end of the
string), as used throughout the fixed-column decoding. -/
def pySlice (s : String) (a b : Nat) : String :=
  String.mk ((s.data.drop a).take (b - a))

/-- Python `s.rstrip()`. -/
def pyRstrip (s : String) : String :=
  String.mk (s.data.reverse.dropWhile pyIsSpace).reverse

/-- Python `s.lstrip()`. -/
def pyLstrip (s : String) : String :=
  String.mk (s.data.dropWhile pyIsSpace)

/-- Python `s.strip()` on a character list. -/
def pyStripChars (cs : List Char) : List Char :=
  ((cs.dropWhile pyIsSpace).reverse.dropWhile pyIsSpace).reverse

/-- Python `s.upper()` (the identifiers involved are ASCII): upper-case
each character. -/
def pyUpper (s : String) : String :=
  String.mk (s.data.map Char.toUpper)

/-- The record type tag of a dataset line: Python `line[0:3]`. -/
def pyTag (l : String) : String := pySlice l 0 3

/-- The numeric value of a digit string (meaningful when all characters are
digits). -/
def digitsNum (cs : List Char) : ℕ :=
  cs.foldl (fun a c => 10 * a + (c.toNat - 48)) 0

/-- A non-empty all-digit character list parsed to its value, `none`
otherwise. -/
def digitsVal (cs : List Char) : Option ℕ :=
  if cs ≠ [] ∧ cs.all Char.isDigit then some (digitsNum cs) else none

/-- Python `int(s)` on a string: strip whitespace, optional sign, a non-empty
run of digits; any other shape raises `ValueError`, modelled as `none`. -/
def pyInt (s : String) : Option ℤ :=
  match pyStripChars s.data with
  | '-' :: rest => (digitsVal rest).map (fun n => -(n : ℤ))
  | '+' :: rest => (digitsVal rest).map (fun n => (n : ℤ))
  | rest => (digitsVal rest).map (fun n => (n : ℤ))

/-- The value of an optional-dot decimal digit sequence (`"12"`, `"12."`,
`".5"`, `"12.5"`), `none` for any other shape. -/
def decimalVal (cs : List Char) : Option ℚ :=
  let intPart := cs.takeWhile (fun c => c != '.')
  match cs.dropWhile (fun c => c != '.') with
  | [] => (digitsVal intPart).map (fun n => (n : ℚ))
  | _ :: frac =>
    if frac.contains '.' then none
    else if intPart.isEmpty && frac.isEmpty then none
    else if intPart.all Char.isDigit && frac.all Char.isDigit then
      some ((digitsNum intPart : ℚ) + (digitsNum frac : ℚ) / (10 : ℚ) ^ frac.length)
    else none

/-- Python `float(s)` restricted to the plain decimal shapes occurring in the
fixed-width coordinate fields (no exponents, infinities or NaNs, which never
arise there); a malformed field raises `ValueError`, modelled as `none`. -/
def pyFloat (s : String) : Option ℚ :=
  match pyStripChars s.data with
  | '-' :: rest => (decimalVal rest).map Neg.neg
  | '+' :: rest => decimalVal rest
  | rest => decimalVal rest

/-! ## Data model (`Runway.py`, `Airport.py`) -/

/-- The runway record (`Runway.py`): all fields are stored as the decoded
text slices, exactly as the source keeps them. -/
structure Runway where
  rwy_ident : String
  length : String
  width : String
  surface : String
  cond : String
  TORA : String
  TODA : String
  ASDA : String
  LDA : String
deriving DecidableEq, Repr

/-- The airport record (`Airport.py`) with the fields the parser populates.
`location` is the (latitude, longitude) pair in signed decimal degrees. -/
structure Airport where
  icao_ident : String
  facility_type : String
  location : ℚ × ℚ
  region_code : String
  state : String
  county : String
  city : String
  facility_name : String
  owner_type : String
  facility_use : String
  elevation : String
  traffic_patt_alt : String
  sectional : String
  responsible_artcc : String
  rwys : List Runway
deriving DecidableEq, Repr

/-! ## Fixed-width record decoding (`parseAirports` / `__parse_airports`) -/

/-- Python `surf_cond.rsplit("-", 1)` wrapped in the source's `"-" in
surf_cond` guard: split at the last hyphen into (surface, condition), or
(whole token, "") when no hyphen is present. -/
def rsplitHyphen (s : String) : String × String :=
  if '-' ∈ s.data then
    (String.mk ((s.data.reverse.dropWhile (fun c => c != '-')).drop 1).reverse,
     String.mk (s.data.reverse.takeWhile (fun c => c != '-')).reverse)
  else (s, "")

/-- One `RWY` sub-record line decoded to a `Runway`, with the source's exact
column ranges and trims. -/
def decodeRunway (l : String) : Runway :=
  let sc := rsplitHyphen (pyRstrip (pySlice l 32 44))
  { rwy_ident := pyRstrip (pySlice l 16 23)
    length := pyLstrip (pySlice l 23 28)
    width := pyLstrip (pySlice l 28 32)
    surface := sc.1
    cond := sc.2
    TORA := pyLstrip (pySlice l 698 703)
    TODA := pyLstrip (pySlice l 703 708)
    ASDA := pyLstrip (pySlice l 708 713)
    LDA := pyLstrip (pySlice l 713 718) }

/-- The boundary markers at which the sub-record scan stops:
`while not lines[i+n][0:3]=='RMK' and not ...=='APT' and not ...=='ARR'`. -/
def isBoundary (l : String) : Bool :=
  pyTag l == "RMK" || pyTag l == "APT" || pyTag l == "ARR"

/-- How a parse pass dies: `indexError` models Python's `IndexError` from the
unbounded `lines[i+n]` access, `valueError` models `ValueError` from
`int()` / `float()` on a malformed fixed-column field. -/
inductive ParseError where
  | indexError
  | valueError
deriving DecidableEq, Repr

/-- The sub-record loop of `parseAirports`, applied to the lines after the
facility line: walk forward until the first boundary-marker line, decoding
each `RWY` line in encounter order and skipping every other line; running
off the end of the line list is the source's unguarded `lines[i+n]` access,
i.e. an `IndexError`. -/
def scanRunways : List String → Except ParseError (List Runway)
  | [] => .error .indexError
  | l :: ls =>
    if isBoundary l then .ok []
    else
      match scanRunways ls with
      | .error e => .error e
      | .ok rs => .ok (if pyTag l == "RWY" then decodeRunway l :: rs else rs)

/-- `convertToDeg` / `__convert_to_deg`: decode the two fixed-offset
D-M-S-hemisphere coordinate strings into signed decimal degrees.
Latitude: `int(s1[0:2]) + int(s1[3:5])/60 + float(s1[6:13])/3600`, negated
when `s1[-1] == 'S'`; longitude: `int(s2[0:3]) + int(s2[4:6])/60 +
float(s2[7:14])/3600`, negated when `s2[-1] == 'W'` (via
`geopy.units.degrees(0, minutes, seconds)`).  Any failing `int`/`float`
conversion raises `ValueError`, modelled as `none`. -/
def convertToDeg (s1 s2 : String) : Option (ℚ × ℚ) :=
  match pyInt (pySlice s1 0 2), pyInt (pySlice s1 3 5), pyFloat (pySlice s1 6 13),
        s1.data.getLast?,
        pyInt (pySlice s2 0 3), pyInt (pySlice s2 4 6), pyFloat (pySlice s2 7 14),
        s2.data.getLast? with
  | some d1, some m1, some sec1, some h1, some d2, some m2, some sec2, some h2 =>
    let aVal : ℚ := (d1 : ℚ) + (m1 : ℚ) / 60 + sec1 / 3600
    let bVal : ℚ := (d2 : ℚ) + (m2 : ℚ) / 60 + sec2 / 3600
    some (if h1 = 'S' then -aVal else aVal, if h2 = 'W' then -bVal else bVal)
  | _, _, _, _, _, _, _, _ => none

/-- The identifier normalization applied to the raw identifier field and to
the responsible-ARTCC field: right-strip, then prefix `"K"` exactly when the
trimmed text has length 3. -/
def normalizeIdent (raw : String) : String :=
  let t := pyRstrip raw
  if t.length = 3 then "K" ++ t else t

/-- The facility scalar fields of an `APT` line, with the source's exact
column ranges and trims, paired with an already-scanned runway list. -/
def mkFacility (line : String) (loc : ℚ × ℚ) (rws : List Runway) : Airport :=
  { icao_ident := normalizeIdent (pySlice line 27 31)
    facility_type := pyRstrip (pySlice line 14 27)
    location := loc
    region_code := pySlice line 41 44
    state := pyRstrip (pySlice line 50 70)
    county := pyRstrip (pySlice line 70 91)
    city := pyRstrip (pySlice line 93 133)
    facility_name := pyRstrip (pySlice line 133 183)
    owner_type := pySlice line 183 185
    facility_use := pySlice line 185 187
    elevation := pyLstrip (pySlice line 578 585)
    traffic_patt_alt := pyLstrip (pySlice line 593 597)
    sectional := pyRstrip (pySlice line 597 627)
    responsible_artcc := normalizeIdent (pySlice line 674 678)
    rwys := rws }

/-- One facility line decoded together with a given runway list (`none` when
the coordinate fields fail to convert). -/
def decodeFacility (line : String) (rws : List Runway) : Option Airport :=
  (convertToDeg (pySlice line 523 537) (pySlice line 550 565)).map
    (fun loc => mkFacility line loc rws)

/-- `parseAirports` / `__parse_airports` over an in-memory line list: every
line whose tag is `APT` starts a facility; its scalar fields are decoded
first (a bad coordinate raises `ValueError`), then the sub-record scan
collects its runways (running off the end raises `IndexError`); every other
line is skipped.  The outer `for i in range(len(lines))` of the source
visits every line, so the recursion continues on the tail either way. -/
def parseAirports : List String → Except ParseError (List Airport)
  | [] => .ok []
  | l :: ls =>
    if pyTag l == "APT" then
      match convertToDeg (pySlice l 523 537) (pySlice l 550 565) with
      | none => .error .valueError
      | some loc =>
        match scanRunways ls with
        | .error e => .error e
        | .ok rs =>
          match parseAirports ls with
          | .error e => .error e
          | .ok rest => .ok (mkFacility l loc rs :: rest)
    else parseAirports ls

/-! ## Geodesic query engine (`AeroData.nearestApts`) -/

/-- The triple `pyproj.Geod(ellps='WGS84').inv` returns: forward azimuth,
back azimuth (unused by the source), and ellipsoidal distance in meters. -/
structure GeodResult where
  fwdAz : ℚ
  backAz : ℚ
  dist : ℚ
deriving DecidableEq, Repr

/-- How a query dies: `attributeError` models Python's `AttributeError` from
`myApt.location` when the origin lookup left `myApt = None`; `valueError`
models `ValueError` from `int(r.length)` on a malformed runway length. -/
inductive QueryError where
  | attributeError
  | valueError
deriving DecidableEq, Repr

/-- The source's forward-azimuth normalization: `if fwd_az<0: fwd_az+=360`. -/
def normAz (az : ℚ) : ℚ :=
  if az < 0 then az + 360 else az

/-- The inner runway loop of `nearestApts`: `l = 0`, then for each runway
whose surface is neither `'WATER'` nor `'TURF'`, `l = max(l, int(r.length))`;
a length `int()` cannot parse raises `ValueError` (`none`). -/
def usableLengthAux : ℤ → List Runway → Option ℤ
  | l, [] => some l
  | l, r :: rs =>
    if r.surface ≠ "WATER" ∧ r.surface ≠ "TURF" then
      match pyInt r.length with
      | some v => usableLengthAux (max l v) rs
      | none => none
    else usableLengthAux l rs

/-- The usable runway length of a facility, as `nearestApts` computes it
(`0` when there are no runways or only water/turf runways). -/
def usableLength (a : Airport) : Option ℤ :=
  usableLengthAux 0 a.rwys

/-- The candidate loop of `nearestApts` over the whole catalog: for each
facility compute its usable runway length, ask the geodesic solver for the
inverse solution from the origin's location to the facility's location,
convert the distance to nautical miles (`dist/1852.0`), normalize the
forward azimuth, and keep the entry `[a, fwd_az, dist]` iff
`l >= 8000 and dist < 1000`. -/
def candidates (geod : ℚ × ℚ → ℚ × ℚ → GeodResult) (myLoc : ℚ × ℚ) :
    List Airport → Option (List (Airport × ℚ × ℚ))
  | [] => some []
  | a :: as =>
    match usableLength a, candidates geod myLoc as with
    | some l, some rest =>
      let g := geod myLoc a.location
      let dist := g.dist / 1852
      let az := normAz g.fwdAz
      some (if 8000 ≤ l ∧ dist < 1000 then (a, az, dist) :: rest else rest)
    | _, _ => none

/-- The runway-surface test of the usable-length loop as a Boolean
predicate: surface is neither `'WATER'` nor `'TURF'`. -/
def nonWT (r : Runway) : Bool :=
  !(r.surface == "WATER") && !(r.surface == "TURF")

/-- Ordering of result entries by their range (the sort key `lambda x: x[2]`
of the source). -/
def rangeLE (x y : Airport × ℚ × ℚ) : Prop :=
  x.2.2 ≤ y.2.2

instance : DecidableRel rangeLE :=
  fun x y => inferInstanceAs (Decidable (x.2.2 ≤ y.2.2))

instance : IsTotal (Airport × ℚ × ℚ) rangeLE :=
  ⟨fun x y => le_total x.2.2 y.2.2⟩

instance : IsTrans (Airport × ℚ × ℚ) rangeLE :=
  ⟨fun _ _ _ h1 h2 => le_trans h1 h2⟩

/-- `AeroData.nearestApts`: resolve the origin by exact (case-sensitive)
identifier match over the catalog — when no facility matches, `myApt` stays
`None` and `myApt.location` raises `AttributeError` — then run the candidate
loop, sort the survivors ascending by range (Python's stable `sorted`,
modelled by `List.insertionSort`) and keep the first
`min(num, len(...))` entries. -/
def nearestApts (geod : ℚ × ℚ → ℚ × ℚ → GeodResult) (apts : List Airport)
    (aptID : String) (num : ℕ) : Except QueryError (List (Airport × ℚ × ℚ)) :=
  match apts.find? (fun a => a.icao_ident == aptID) with
  | none => .error .attributeError
  | some myApt =>
    match candidates geod myApt.location apts with
    | none => .error .valueError
    | some cands =>
      let sorted := List.insertionSort rangeLE cands
      .ok (sorted.take (min num sorted.length))

/-! ## Origin resolution of `AvData.nearest_airports` / `AvData.get_data` -/

/-- The typed failure of `AvData.nearest_airports`: the source raises
`ValueError("Airport \"...\" not found in FAA data.")` when the origin
identifier resolves to no facility. -/
inductive AvDataError where
  | notFound (icao : String)
deriving DecidableEq, Repr

/-- Origin resolution of `AvData.nearest_airports` (and `AvData.get_data`):
the first facility whose identifier matches the query case-insensitively
(`a.icao_ident.upper() == icao_ident.upper()`); when none matches, the typed
not-found failure is raised. -/
def avResolveOrigin (airports : List Airport) (icao : String) :
    Except AvDataError Airport :=
  match airports.find? (fun a => pyUpper a.icao_ident == pyUpper icao) with
  | some a => .ok a
  | none => .error (.notFound icao)

/-! ## Concrete inputs used by witnesses and counterexamples -/

/-- A well-formed facility line: tag `APT`, the latitude field at columns
523–537 and the longitude field at columns 550–565. -/
def aptLineW : String :=
  "APT" ++ String.mk (List.replicate 520 ' ') ++ "30-58-40.1000N" ++
    String.mk (List.replicate 13 ' ') ++ "086-31-58.2000W"

/-- A runway usable for the 8000 ft filter: 9000 ft of dry concrete. -/
def rwyW : Runway :=
  { rwy_ident := "18/36", length := "9000", width := "150", surface := "CONC",
    cond := "G", TORA := "", TODA := "", ASDA := "", LDA := "" }

/-- A runway whose length field is blank (Python `int("")` raises). -/
def rwyBlank : Runway :=
  { rwy_ident := "09/27", length := "", width := "75", surface := "ASPH",
    cond := "", TORA := "", TODA := "", ASDA := "", LDA := "" }

/-- A water runway (excluded from the usable-length computation). -/
def rwyWater : Runway :=
  { rwy_ident := "N/S", length := "12000", width := "500", surface := "WATER",
    cond := "", TORA := "", TODA := "", ASDA := "", LDA := "" }

/-- A concrete origin airport. -/
def aptOriginW : Airport :=
  { icao_ident := "KAAA", facility_type := "AIRPORT", location := (30, -86),
    region_code := "ASO", state := "FLORIDA", county := "OKALOOSA",
    city := "AAAVILLE", facility_name := "AAA FIELD", owner_type := "PU",
    facility_use := "PU", elevation := "87", traffic_patt_alt := "1000",
    sectional := "NEW ORLEANS", responsible_artcc := "KZJX", rwys := [rwyW] }

/-- A second concrete airport with a usable runway. -/
def aptOtherW : Airport :=
  { aptOriginW with icao_ident := "KBBB", location := (31, -87) }

/-- An airport whose only runway has a blank length field. -/
def aptBadW : Airport :=
  { aptOriginW with icao_ident := "KCCC", rwys := [rwyBlank] }

/-- An airport whose only runway is a water lane. -/
def aptWaterW : Airport :=
  { aptOriginW with icao_ident := "KDDD", rwys := [rwyWater] }

/-- A geodesic solver stub returning azimuth 10°, distance 0 m. -/
def geodW : ℚ × ℚ → ℚ × ℚ → GeodResult :=
  fun _ _ => { fwdAz := 10, backAz := 190, dist := 0 }

/-- A geodesic solver stub returning a distance of exactly 1852000 m
(1000 nautical miles) with azimuth −90°. -/
def geodCap : ℚ × ℚ → ℚ × ℚ → GeodResult :=
  fun _ _ => { fwdAz := -90, backAz := 90, dist := 1852000 }

/-! ## Claims about the sub-record scan (C5, C7) -/

/-- C5: for a facility record, each scanned line strictly after it and before
the first boundary-marker line (tag `RMK`, `APT` or `ARR`) whose tag equals
`RWY` is decoded into a Runway and appended in encounter order, every other
intervening line is skipped without effect, and the scan stops at the first
boundary-marker line. -/
theorem scanRunways_runs_spec (rest : List String) (rs : List Runway)
    (h : scanRunways rest = .ok rs) :
    rs = ((rest.takeWhile fun l => !isBoundary l).filter
        (fun l => pyTag l == "RWY")).map decodeRunway ∧
      ∃ b rest2, rest.dropWhile (fun l => !isBoundary l) = b :: rest2 ∧
        isBoundary b = true := by
  induction rest generalizing rs with
  | nil => simp [scanRunways] at h
  | cons l ls ih =>
    rw [scanRunways] at h
    by_cases hb : isBoundary l = true
    · rw [if_pos hb] at h
      cases h
      refine ⟨by simp [List.takeWhile_cons, hb], l, ls, ?_, hb⟩
      simp [List.dropWhile_cons, hb]
    · rw [if_neg hb] at h
      cases heq : scanRunways ls with
      | error e => rw [heq] at h; cases h
      | ok rs2 =>
        rw [heq] at h
        cases h
        obtain ⟨h1, b, rest2, h2, h3⟩ := ih rs2 heq
        have hb' : isBoundary l = false := by
          cases hcase : isBoundary l
          · rfl
          · exact absurd hcase hb
        refine ⟨?_, b, rest2, ?_, h3⟩
        · simp only [List.takeWhile_cons, hb', Bool.not_false, if_pos]
          by_cases hr : (pyTag l == "RWY") = true
          · simp [List.filter_cons, hr, h1]
          · have hr' : (pyTag l == "RWY") = false := by
              cases hcase : (pyTag l == "RWY")
              · rfl
              · exact absurd hcase hr
            simp [List.filter_cons, hr', h1]
        · simpa [List.dropWhile_cons, hb'] using h2

/-- C5 witness: a concrete sub-record run with two runway lines, one skipped
line and a remarks boundary. -/
theorem scanRunways_runs_spec_witness :
    [decodeRunway "RWY one", decodeRunway "RWY two"] =
      ((["RWY one", "ZZZ skip", "RWY two", "RMK done", "RWY late"].takeWhile
          fun l => !isBoundary l).filter (fun l => pyTag l == "RWY")).map
        decodeRunway ∧
      ∃ b rest2,
        ["RWY one", "ZZZ skip", "RWY two", "RMK done", "RWY late"].dropWhile
            (fun l => !isBoundary l) = b :: rest2 ∧
          isBoundary b = true :=
  scanRunways_runs_spec ["RWY one", "ZZZ skip", "RWY two", "RMK done", "RWY late"]
    [decodeRunway "RWY one", decodeRunway "RWY two"] (by rfl)

/-- C7: when the line sequence ends before any boundary marker (`RMK`, `APT`,
`ARR`) is found, the source's scan does not fail with a typed
malformed-record error: the unguarded `lines[i+n]` access raises Python's
`IndexError` (an out-of-bounds indexing fault), and that is what a parse
pass whose facility record is last in the file dies with. -/
theorem scanRunways_end_of_input (rest : List String)
    (h : ∀ l ∈ rest, isBoundary l = false) :
    scanRunways rest = .error .indexError ∧
      ∀ l, pyTag l = "APT" →
        (convertToDeg (pySlice l 523 537) (pySlice l 550 565)).isSome = true →
        parseAirports (l :: rest) = .error .indexError := by
  have hscan : scanRunways rest = .error .indexError := by
    induction rest with
    | nil => rfl
    | cons x xs ih =>
      rw [scanRunways, if_neg (by simp [h x (by simp)])]
      rw [ih fun l hl => h l (List.mem_cons_of_mem x hl)]
  refine ⟨hscan, fun l hl hc => ?_⟩
  rw [parseAirports, if_pos (by simp [hl])]
  cases hcv : convertToDeg (pySlice l 523 537) (pySlice l 550 565) with
  | none => rw [hcv] at hc; cases hc
  | some loc => rw [hscan]

set_option maxRecDepth 10000 in
/-- C7 witness / failing input: a facility line that is the last record of
the file, followed only by a runway line.  The parse pass dies with the
indexing fault. -/
theorem scanRunways_end_of_input_witness :
    parseAirports (aptLineW :: ["RWY one"]) = .error .indexError :=
  (scanRunways_end_of_input ["RWY one"] (by decide)).2 aptLineW (by decide)
    (by decide)

/-! ## Claim about the coordinate converter (C6) -/

/-- C6: the coordinate converter combines fixed-offset components as
`degrees + minutes/60 + seconds/3600` (2-digit degrees for latitude at
offsets 0–2, 3-digit for longitude at offsets 0–3, minutes and seconds at
their fixed offsets), negates the latitude exactly when its hemisphere
letter is `'S'` and the longitude exactly when its letter is `'W'`, and
leaves any other hemisphere letter (`'N'`/`'E'`) positive. -/
theorem convertToDeg_spec (s1 s2 : String) (d1 m1 d2 m2 : ℤ) (sec1 sec2 : ℚ)
    (h1 h2 : Char)
    (hd1 : pyInt (pySlice s1 0 2) = some d1)
    (hm1 : pyInt (pySlice s1 3 5) = some m1)
    (hs1 : pyFloat (pySlice s1 6 13) = some sec1)
    (hh1 : s1.data.getLast? = some h1)
    (hd2 : pyInt (pySlice s2 0 3) = some d2)
    (hm2 : pyInt (pySlice s2 4 6) = some m2)
    (hs2 : pyFloat (pySlice s2 7 14) = some sec2)
    (hh2 : s2.data.getLast? = some h2) :
    convertToDeg s1 s2 =
      some
        ((if h1 = 'S' then -((d1 : ℚ) + (m1 : ℚ) / 60 + sec1 / 3600)
          else (d1 : ℚ) + (m1 : ℚ) / 60 + sec1 / 3600),
         (if h2 = 'W' then -((d2 : ℚ) + (m2 : ℚ) / 60 + sec2 / 3600)
          else (d2 : ℚ) + (m2 : ℚ) / 60 + sec2 / 3600)) := by
  rw [convertToDeg, hd1, hm1, hs1, hh1, hd2, hm2, hs2, hh2]

/-- C6 witness: the converter applied to a concrete north/west coordinate
pair in the FAA layout. -/
theorem convertToDeg_spec_witness :
    convertToDeg "30-58-40.1000N" "086-31-58.2000W" =
      some
        ((if 'N' = 'S' then
            -((30 : ℚ) + (58 : ℚ) / 60 +
              (((40 : ℕ) : ℚ) + ((1000 : ℕ) : ℚ) / (10 : ℚ) ^ (4 : ℕ)) / 3600)
          else
            (30 : ℚ) + (58 : ℚ) / 60 +
              (((40 : ℕ) : ℚ) + ((1000 : ℕ) : ℚ) / (10 : ℚ) ^ (4 : ℕ)) / 3600),
         (if 'W' = 'W' then
            -((86 : ℚ) + (31 : ℚ) / 60 +
              (((58 : ℕ) : ℚ) + ((2000 : ℕ) : ℚ) / (10 : ℚ) ^ (4 : ℕ)) / 3600)
          else
            (86 : ℚ) + (31 : ℚ) / 60 +
              (((58 : ℕ) : ℚ) + ((2000 : ℕ) : ℚ) / (10 : ℚ) ^ (4 : ℕ)) / 3600)) :=
  convertToDeg_spec "30-58-40.1000N" "086-31-58.2000W" 30 58 86 31
    (((40 : ℕ) : ℚ) + ((1000 : ℕ) : ℚ) / (10 : ℚ) ^ (4 : ℕ))
    (((58 : ℕ) : ℚ) + ((2000 : ℕ) : ℚ) / (10 : ℚ) ^ (4 : ℕ)) 'N' 'W'
    (by decide) (by decide) (by rfl) (by decide) (by decide) (by decide)
    (by rfl) (by decide)

/-! ## Claims about identifier normalization (C8) and the surface split (C9) -/

/-- A `dropWhile` that drops nothing is the identity. -/
theorem dropWhile_eq_self_of_length {p : Char → Bool} {l : List Char}
    (h : (l.dropWhile p).length = l.length) : l.dropWhile p = l := by
  induction l with
  | nil => rfl
  | cons c cs ih =>
    by_cases hp : p c = true
    · exfalso
      rw [List.dropWhile_cons, if_pos hp] at h
      have hle : (cs.dropWhile p).length ≤ cs.length :=
        (List.dropWhile_sublist p).length_le
      simp only [List.length_cons] at h
      omega
    · rw [List.dropWhile_cons, if_neg hp]

/-- A right-strip that preserves length is the identity. -/
theorem pyRstrip_eq_self_of_length {s : String}
    (h : (pyRstrip s).length = s.length) : pyRstrip s = s := by
  have h0 : (pyRstrip s).length = (s.data.reverse.dropWhile pyIsSpace).length :=
    List.length_reverse _
  have h1 : (s.data.reverse.dropWhile pyIsSpace).length = s.data.reverse.length := by
    rw [← h0, h]
    exact (List.length_reverse _).symm
  calc pyRstrip s = String.mk (s.data.reverse.dropWhile pyIsSpace).reverse := rfl
    _ = String.mk s.data.reverse.reverse := by
      rw [dropWhile_eq_self_of_length h1]
    _ = s := by rw [List.reverse_reverse]

/-- C8: the identifier stored for a parsed facility is the raw identifier
field (columns 27–31) with `"K"` prefixed when the right-stripped field has
length exactly 3, and the field verbatim when it is already 4 characters;
`"VPS"` becomes `"KVPS"` and `"PHNL"` stays unchanged. -/
theorem normalizeIdent_spec (raw : String) :
    ((pyRstrip raw).length = 3 → normalizeIdent raw = "K" ++ pyRstrip raw) ∧
      (raw.length ≤ 4 → (pyRstrip raw).length = 4 → normalizeIdent raw = raw) ∧
      normalizeIdent "VPS" = "KVPS" ∧ normalizeIdent "PHNL" = "PHNL" ∧
      ∀ line rs apt, decodeFacility line rs = some apt →
        apt.icao_ident = normalizeIdent (pySlice line 27 31) := by
  refine ⟨fun h3 => ?_, fun hle h4 => ?_, by decide, by decide,
    fun line rs apt h => ?_⟩
  · rw [normalizeIdent, if_pos h3]
  · have hstrip : (pyRstrip raw).length ≤ raw.length := by
      have hle : (raw.data.reverse.dropWhile pyIsSpace).length ≤ raw.data.reverse.length :=
        (List.dropWhile_sublist pyIsSpace).length_le
      have h0 : (pyRstrip raw).length = (raw.data.reverse.dropWhile pyIsSpace).length :=
        List.length_reverse _
      have h2 : raw.data.reverse.length = raw.length := by
        rw [List.length_reverse]
        rfl
      omega
    have heq : (pyRstrip raw).length = raw.length := by omega
    rw [normalizeIdent, if_neg (by omega), pyRstrip_eq_self_of_length heq]
  · rw [decodeFacility] at h
    cases hcv : convertToDeg (pySlice line 523 537) (pySlice line 550 565) with
    | none => rw [hcv] at h; cases h
    | some loc => rw [hcv] at h; cases h; rfl

/-- C8 witness: the raw legacy code `"VPS"` (trimmed length 3) and the
4-character code `"PHNL"` at concrete inputs. -/
theorem normalizeIdent_spec_witness :
    normalizeIdent "VPS" = "K" ++ pyRstrip "VPS" ∧ normalizeIdent "PHNL" = "PHNL" :=
  ⟨(normalizeIdent_spec "VPS").1 (by decide),
   (normalizeIdent_spec "PHNL").2.1 (by decide) (by decide)⟩

/-- `takeWhile`/`dropWhile` across a satisfied prefix and a failing head. -/
theorem takeWhile_dropWhile_append {p : Char → Bool} (l1 l2 : List Char)
    (h : ∀ x ∈ l1, p x = true) (y : Char) (hy : p y = false) :
    (l1 ++ y :: l2).takeWhile p = l1 ∧ (l1 ++ y :: l2).dropWhile p = y :: l2 := by
  induction l1 with
  | nil => simp [List.takeWhile_cons, List.dropWhile_cons, hy]
  | cons c cs ih =>
    have hc : p c = true := h c (by simp)
    have ih' := ih fun x hx => h x (List.mem_cons_of_mem c hx)
    simp [List.takeWhile_cons, List.dropWhile_cons, hc, ih'.1, ih'.2]

/-- C9: the raw surface/condition token is split at its last hyphen —
everything before the last `-` is the surface, everything after it the
condition — and a token with no hyphen is all surface with empty condition;
`"CONC-G"` gives `("CONC", "G")` and `"TURF"` gives `("TURF", "")`; the
runway decoder stores the two halves as `surface` and `cond`. -/
theorem rsplitHyphen_spec :
    (∀ a b : String, '-' ∉ b.data → rsplitHyphen (a ++ "-" ++ b) = (a, b)) ∧
      (∀ s : String, '-' ∉ s.data → rsplitHyphen s = (s, "")) ∧
      rsplitHyphen "CONC-G" = ("CONC", "G") ∧
      rsplitHyphen "TURF" = ("TURF", "") ∧
      ∀ l, (decodeRunway l).surface = (rsplitHyphen (pyRstrip (pySlice l 32 44))).1 ∧
        (decodeRunway l).cond = (rsplitHyphen (pyRstrip (pySlice l 32 44))).2 := by
  refine ⟨fun a b hb => ?_, fun s hs => ?_, by decide, by decide, fun l => ⟨rfl, rfl⟩⟩
  · have hdata : (a ++ "-" ++ b).data = a.data ++ '-' :: b.data := by
      simp [String.data_append]
    have hmem : '-' ∈ (a ++ "-" ++ b).data := by rw [hdata]; simp
    have hrev : (a ++ "-" ++ b).data.reverse = b.data.reverse ++ '-' :: a.data.reverse := by
      rw [hdata]
      simp
    have hall : ∀ x ∈ b.data.reverse, (x != '-') = true := by
      intro x hx
      have : x ∈ b.data := List.mem_reverse.mp hx
      simp only [bne_iff_ne, ne_eq]
      exact fun hxe => hb (hxe ▸ this)
    have htd := takeWhile_dropWhile_append b.data.reverse a.data.reverse hall '-'
      (by simp)
    rw [rsplitHyphen, if_pos hmem]
    rw [hrev, htd.1, htd.2]
    simp
  · rw [rsplitHyphen, if_neg hs]

/-- C9 witness: the split applied via the general last-hyphen law at the
concrete token `"CONC-G"`, and the no-hyphen law at `"TURF"`. -/
theorem rsplitHyphen_spec_witness :
    rsplitHyphen ("CONC" ++ "-" ++ "G") = ("CONC", "G") ∧
      rsplitHyphen "TURF" = ("TURF", "") :=
  ⟨rsplitHyphen_spec.1 "CONC" "G" (by decide),
   rsplitHyphen_spec.2.1 "TURF" (by decide)⟩

/-! ## Lemmas about the usable-length loop and the candidate loop -/

/-- The usable-length loop fails exactly when some non-water, non-turf
runway has a length `int()` cannot parse. -/
theorem usableLengthAux_eq_none_iff (rs : List Runway) :
    ∀ l : ℤ, usableLengthAux l rs = none ↔
      ∃ r ∈ rs, r.surface ≠ "WATER" ∧ r.surface ≠ "TURF" ∧ pyInt r.length = none := by
  induction rs with
  | nil => intro l; simp [usableLengthAux]
  | cons r rs ih =>
    intro l
    rw [usableLengthAux]
    by_cases hs : r.surface ≠ "WATER" ∧ r.surface ≠ "TURF"
    · rw [if_pos hs]
      cases hpi : pyInt r.length with
      | none => simp [hs.1, hs.2, hpi]
      | some v =>
        rw [ih (max l v)]
        constructor
        · rintro ⟨r2, hr2, h2⟩
          exact ⟨r2, List.mem_cons_of_mem r hr2, h2⟩
        · rintro ⟨r2, hr2, hw, ht, hn⟩
          rcases List.mem_cons.mp hr2 with rfl | hr2
          · rw [hpi] at hn; cases hn
          · exact ⟨r2, hr2, hw, ht, hn⟩
    · rw [if_neg hs]
      rw [ih l]
      constructor
      · rintro ⟨r2, hr2, h2⟩
        exact ⟨r2, List.mem_cons_of_mem r hr2, h2⟩
      · rintro ⟨r2, hr2, hw, ht, hn⟩
        rcases List.mem_cons.mp hr2 with rfl | hr2
        · exact absurd ⟨hw, ht⟩ hs
        · exact ⟨r2, hr2, hw, ht, hn⟩

/-- When every non-water, non-turf runway length parses, the usable-length
loop computes the running maximum of the parsed lengths. -/
theorem usableLengthAux_eq_foldl (rs : List Runway) :
    ∀ (l : ℤ) (vals : List ℤ),
      (rs.filter nonWT).mapM (fun r => pyInt r.length) = some vals →
      usableLengthAux l rs = some (vals.foldl max l) := by
  induction rs with
  | nil =>
    intro l vals h
    simp only [List.filter_nil, List.mapM_nil, pure, Option.some.injEq] at h
    subst h
    rfl
  | cons r rs ih =>
    intro l vals h
    by_cases hb : nonWT r = true
    · have hs : r.surface ≠ "WATER" ∧ r.surface ≠ "TURF" := by
        simpa [nonWT] using hb
      rw [List.filter_cons_of_pos hb, List.mapM_cons] at h
      cases hpi : pyInt r.length with
      | none => rw [hpi] at h; cases h
      | some v =>
        rw [hpi] at h
        cases hrest : (rs.filter nonWT).mapM (fun r => pyInt r.length) with
        | none => rw [hrest] at h; cases h
        | some vs =>
          rw [hrest] at h
          simp only [Option.bind_eq_bind, Option.some_bind, Option.pure_def,
            Option.some.injEq] at h
          subst h
          rw [usableLengthAux, if_pos hs, hpi]
          show usableLengthAux (max l v) rs = some (List.foldl max l (v :: vs))
          rw [ih (max l v) vs hrest, List.foldl_cons]
    · have hs : ¬(r.surface ≠ "WATER" ∧ r.surface ≠ "TURF") := by
        simp only [nonWT, Bool.and_eq_true, Bool.not_eq_true', beq_eq_false_iff_ne,
          ne_eq] at hb
        tauto
      rw [List.filter_cons_of_neg (by simpa using hb)] at h
      rw [usableLengthAux, if_neg hs]
      exact ih l vals h

/-- The candidate loop fails exactly when some facility's usable-length
computation fails. -/
theorem candidates_eq_none_iff (geod : ℚ × ℚ → ℚ × ℚ → GeodResult)
    (myLoc : ℚ × ℚ) (apts : List Airport) :
    candidates geod myLoc apts = none ↔ ∃ a ∈ apts, usableLength a = none := by
  induction apts with
  | nil => simp [candidates]
  | cons a as ih =>
    rw [candidates]
    cases hu : usableLength a with
    | none => simp [hu]
    | some l =>
      cases hc : candidates geod myLoc as with
      | none =>
        simp only [List.mem_cons]
        constructor
        · intro _
          rcases ih.mp hc with ⟨b, hb, hbn⟩
          exact ⟨b, Or.inr hb, hbn⟩
        · intro _; trivial
      | some rest =>
        simp only [List.mem_cons]
        constructor
        · intro hnone; cases hnone
        · rintro ⟨b, rfl | hb, hbn⟩
          · rw [hu] at hbn; cases hbn
          · exact absurd (ih.mpr ⟨b, hb, hbn⟩) (by rw [hc]; simp)

/-- When the candidate loop succeeds, its output is the filter-and-annotate
of the catalog: each facility with a parsed usable length of at least 8000
and a range strictly below 1000 NM, annotated with its normalized forward
azimuth and its range. -/
theorem candidates_eq_filterMap (geod : ℚ × ℚ → ℚ × ℚ → GeodResult)
    (myLoc : ℚ × ℚ) (apts : List Airport) (cands : List (Airport × ℚ × ℚ))
    (h : candidates geod myLoc apts = some cands) :
    cands = apts.filterMap (fun a =>
      match usableLength a with
      | none => none
      | some l =>
        if 8000 ≤ l ∧ (geod myLoc a.location).dist / 1852 < 1000 then
          some (a, normAz (geod myLoc a.location).fwdAz,
            (geod myLoc a.location).dist / 1852)
        else none) := by
  induction apts generalizing cands with
  | nil =>
    rw [candidates] at h
    cases h
    rfl
  | cons a as ih =>
    rw [candidates] at h
    cases hu : usableLength a with
    | none => rw [hu] at h; cases h
    | some l =>
      rw [hu] at h
      cases hc : candidates geod myLoc as with
      | none => rw [hc] at h; cases h
      | some rest =>
        rw [hc] at h
        cases h
        rw [List.filterMap_cons]
        simp only [hu]
        by_cases hcond : 8000 ≤ l ∧ (geod myLoc a.location).dist / 1852 < 1000
        · simp only [if_pos hcond]
          exact congrArg _ (ih rest hc)
        · simp only [if_neg hcond]
          exact ih rest hc

/-- A facility whose runways are all water lanes keeps the initial value:
the `max` update is never executed. -/
theorem usableLengthAux_all_water (rs : List Runway)
    (hw : ∀ r ∈ rs, r.surface = "WATER") :
    ∀ l : ℤ, usableLengthAux l rs = some l := by
  induction rs with
  | nil => intro l; rfl
  | cons r rs ih =>
    intro l
    rw [usableLengthAux, if_neg (by simp [hw r (by simp)])]
    exact ih (fun r2 hr2 => hw r2 (List.mem_cons_of_mem r hr2)) l

/-! ## Claim C2: the candidate filter -/

/-- C2 (amended: the source's range test is strict `<`, not `≤`): whenever
the candidate loop succeeds, an entry for facility `a` is kept iff `a` is in
the catalog, its annotations are the normalized azimuth and the range in
nautical miles, and its usable runway length — the running maximum of the
parsed lengths of its non-water, non-turf runways, `0` when there are
none — is at least 8000 while its range is strictly less than the 1000 NM
cap; in particular a facility whose only runways are water lanes has usable
length 0 and is excluded. -/
theorem candidates_keep_spec (geod : ℚ × ℚ → ℚ × ℚ → GeodResult)
    (myLoc : ℚ × ℚ) (apts : List Airport) (cands : List (Airport × ℚ × ℚ))
    (h : candidates geod myLoc apts = some cands) :
    (∀ a az d, (a, az, d) ∈ cands ↔
      (a ∈ apts ∧ az = normAz (geod myLoc a.location).fwdAz ∧
        d = (geod myLoc a.location).dist / 1852 ∧
        ∃ l, usableLength a = some l ∧ 8000 ≤ l ∧
          (geod myLoc a.location).dist / 1852 < 1000)) ∧
    (∀ a : Airport, ∀ vals : List ℤ,
      (a.rwys.filter nonWT).mapM (fun r => pyInt r.length) = some vals →
        usableLength a = some (vals.foldl max 0)) ∧
    (∀ a : Airport, (∀ r ∈ a.rwys, r.surface = "WATER") →
        usableLength a = some 0 ∧ ∀ az d, (a, az, d) ∉ cands) := by
  have hmem : ∀ a az d, (a, az, d) ∈ cands ↔
      (a ∈ apts ∧ az = normAz (geod myLoc a.location).fwdAz ∧
        d = (geod myLoc a.location).dist / 1852 ∧
        ∃ l, usableLength a = some l ∧ 8000 ≤ l ∧
          (geod myLoc a.location).dist / 1852 < 1000) := by
    intro a az d
    rw [candidates_eq_filterMap geod myLoc apts cands h, List.mem_filterMap]
    constructor
    · rintro ⟨x, hx, hfx⟩
      cases hu : usableLength x with
      | none => rw [hu] at hfx; cases hfx
      | some l =>
        rw [hu] at hfx
        simp only at hfx
        by_cases hcond : 8000 ≤ l ∧ (geod myLoc x.location).dist / 1852 < 1000
        · rw [if_pos hcond] at hfx
          obtain ⟨rfl, rfl, rfl⟩ : x = a ∧
              normAz (geod myLoc x.location).fwdAz = az ∧
              (geod myLoc x.location).dist / 1852 = d := by
            simpa [Prod.ext_iff] using hfx
          exact ⟨hx, rfl, rfl, l, hu, hcond.1, hcond.2⟩
        · rw [if_neg hcond] at hfx; cases hfx
    · rintro ⟨ha, rfl, rfl, l, hl, h8, hlt⟩
      refine ⟨a, ha, ?_⟩
      rw [hl]
      simp only
      rw [if_pos ⟨h8, hlt⟩]
  refine ⟨hmem, fun a vals hv => usableLengthAux_eq_foldl a.rwys 0 vals hv,
    fun a hw => ?_⟩
  have hu : usableLength a = some 0 := usableLengthAux_all_water a.rwys hw 0
  refine ⟨hu, fun az d hmem2 => ?_⟩
  obtain ⟨_, _, _, l, hl, h8, _⟩ := (hmem a az d).mp hmem2
  rw [hu] at hl
  cases hl
  omega

/-- C2 counterexample: a facility with a 9000 ft concrete runway at a range
of exactly 1000 NM (1852000 m) passes the claim's `range ≤ max_range_nm`
test but is dropped by the source's strict `dist < 1000`. -/
theorem candidates_range_cap_cex :
    usableLength aptOriginW = some 9000 ∧
      (geodCap aptOriginW.location aptOriginW.location).dist / 1852 = 1000 ∧
      candidates geodCap aptOriginW.location [aptOriginW] = some [] := by
  have h9 : usableLength aptOriginW = some 9000 := by decide
  refine ⟨h9, by norm_num [geodCap], ?_⟩
  simp only [candidates, h9, geodCap]
  norm_num

/-- C2 witness: the filter characterization applied to a one-facility
catalog holding only a water-lane seaplane base. -/
theorem candidates_keep_spec_witness :
    (∀ a az d, (a, az, d) ∈ ([] : List (Airport × ℚ × ℚ)) ↔
      (a ∈ [aptWaterW] ∧ az = normAz (geodW aptOriginW.location a.location).fwdAz ∧
        d = (geodW aptOriginW.location a.location).dist / 1852 ∧
        ∃ l, usableLength a = some l ∧ 8000 ≤ l ∧
          (geodW aptOriginW.location a.location).dist / 1852 < 1000)) ∧
    (∀ a : Airport, ∀ vals : List ℤ,
      (a.rwys.filter nonWT).mapM (fun r => pyInt r.length) = some vals →
        usableLength a = some (vals.foldl max 0)) ∧
    (∀ a : Airport, (∀ r ∈ a.rwys, r.surface = "WATER") →
        usableLength a = some 0 ∧
          ∀ az d, (a, az, d) ∉ ([] : List (Airport × ℚ × ℚ))) :=
  candidates_keep_spec geodW aptOriginW.location [aptWaterW] []
    (by
      have h0 : usableLength aptWaterW = some 0 := by decide
      simp only [candidates, h0, geodW]
      norm_num)

/-! ## Claim C1: ordering, head minimality and top-K truncation -/

/-- C1: whenever the query succeeds, the returned sequence is sorted
ascending (monotonically non-decreasing) by range, its first element's range
is the smallest among all entries passing the filter, and its length is
exactly `min count (number of qualifying candidates)`. -/
theorem nearestApts_sorted_topK (geod : ℚ × ℚ → ℚ × ℚ → GeodResult)
    (apts : List Airport) (aptID : String) (num : ℕ)
    (res : List (Airport × ℚ × ℚ))
    (h : nearestApts geod apts aptID num = .ok res) :
    List.Sorted rangeLE res ∧
      ∃ myApt cands,
        apts.find? (fun a => a.icao_ident == aptID) = some myApt ∧
          candidates geod myApt.location apts = some cands ∧
          res.length = min num cands.length ∧
          ∀ b ∈ res.head?, ∀ c ∈ cands, b.2.2 ≤ c.2.2 := by
  rw [nearestApts] at h
  cases hfind : apts.find? (fun a => a.icao_ident == aptID) with
  | none => rw [hfind] at h; cases h
  | some myApt =>
    rw [hfind] at h
    replace h : (match candidates geod myApt.location apts with
        | none => Except.error QueryError.valueError
        | some cands =>
          Except.ok (List.take (min num (List.insertionSort rangeLE cands).length)
            (List.insertionSort rangeLE cands))) = Except.ok res := h
    cases hcands : candidates geod myApt.location apts with
    | none => rw [hcands] at h; cases h
    | some cands =>
      rw [hcands] at h
      cases h
      have hsorted : List.Sorted rangeLE (List.insertionSort rangeLE cands) :=
        List.sorted_insertionSort rangeLE cands
      have hperm : (List.insertionSort rangeLE cands).Perm cands :=
        List.perm_insertionSort rangeLE cands
      refine ⟨List.Pairwise.sublist (List.take_sublist _ _) hsorted,
        myApt, cands, rfl, hcands, ?_, ?_⟩
      · rw [List.length_take, hperm.length_eq]
        omega
      · intro b hb c hc
        rw [Option.mem_def] at hb
        rcases hse : List.insertionSort rangeLE cands with _ | ⟨x, xs⟩
        · rw [hse] at hb
          simp at hb
        · rw [hse] at hb hsorted
          have hc2 : c ∈ x :: xs := by
            rw [← hse]
            exact hperm.mem_iff.mpr hc
          have hbx : b = x := by
            rcases num with _ | n
            · simp at hb
            · simp only [List.length_cons, Nat.succ_min_succ, List.take_succ_cons,
                List.head?_cons, Option.some.injEq] at hb
              exact hb.symm
          subst hbx
          rcases List.mem_cons.mp hc2 with rfl | hc3
          · exact le_refl _
          · exact List.rel_of_sorted_cons hsorted c hc3

/-- C1 witness: a one-facility catalog queried for one result. -/
theorem nearestApts_sorted_topK_witness :
    List.Sorted rangeLE [(aptOriginW, (10 : ℚ), (0 : ℚ))] ∧
      ∃ myApt cands,
        [aptOriginW].find? (fun a => a.icao_ident == "KAAA") = some myApt ∧
          candidates geodW myApt.location [aptOriginW] = some cands ∧
          [(aptOriginW, (10 : ℚ), (0 : ℚ))].length = min 1 cands.length ∧
          ∀ b ∈ [(aptOriginW, (10 : ℚ), (0 : ℚ))].head?, ∀ c ∈ cands,
            b.2.2 ≤ c.2.2 :=
  nearestApts_sorted_topK geodW [aptOriginW] "KAAA" 1 [(aptOriginW, 10, 0)]
    (by
      have hfind : List.find? (fun a => a.icao_ident == "KAAA") [aptOriginW] =
          some aptOriginW := by decide
      have h9 : usableLength aptOriginW = some 9000 := by decide
      have hcands : candidates geodW aptOriginW.location [aptOriginW] =
          some [(aptOriginW, 10, 0)] := by
        simp only [candidates, h9, geodW]
        norm_num [normAz]
      simp only [nearestApts, hfind, hcands]
      norm_num [List.insertionSort, List.orderedInsert])

/-! ## Claim C4: bearing and range of returned entries -/

/-- The source's azimuth normalization maps any azimuth the geodesic solver
can return (pyproj forward azimuths lie in [-180, 180]) into [0, 360). -/
theorem normAz_bounds {az : ℚ} (h1 : -180 ≤ az) (h2 : az ≤ 180) :
    0 ≤ normAz az ∧ normAz az < 360 := by
  rw [normAz]
  split
  · constructor <;> linarith
  · constructor <;> linarith

/-- C4 (amended: the candidate loop runs over every facility in the catalog,
the origin itself included): every entry of a successful query result is
annotated with the geodesic inverse solution from the origin's location to
that entry's facility's own location — range is the ellipsoidal distance
divided by 1852, bearing is the forward azimuth plus 360 when negative —
and, as long as the solver's forward azimuths lie in [-180, 180], every
returned bearing lies in [0, 360). -/
theorem nearestApts_bearing_range_spec (geod : ℚ × ℚ → ℚ × ℚ → GeodResult)
    (apts : List Airport) (aptID : String) (num : ℕ)
    (res : List (Airport × ℚ × ℚ))
    (haz : ∀ p q : ℚ × ℚ, -180 ≤ (geod p q).fwdAz ∧ (geod p q).fwdAz ≤ 180)
    (h : nearestApts geod apts aptID num = .ok res) :
    ∃ myApt, apts.find? (fun a => a.icao_ident == aptID) = some myApt ∧
      ∀ e ∈ res, e.1 ∈ apts ∧
        e.2.2 = (geod myApt.location e.1.location).dist / 1852 ∧
        e.2.1 = normAz (geod myApt.location e.1.location).fwdAz ∧
        0 ≤ e.2.1 ∧ e.2.1 < 360 := by
  rw [nearestApts] at h
  cases hfind : apts.find? (fun a => a.icao_ident == aptID) with
  | none => rw [hfind] at h; cases h
  | some myApt =>
    rw [hfind] at h
    replace h : (match candidates geod myApt.location apts with
        | none => Except.error QueryError.valueError
        | some cands =>
          Except.ok (List.take (min num (List.insertionSort rangeLE cands).length)
            (List.insertionSort rangeLE cands))) = Except.ok res := h
    cases hcands : candidates geod myApt.location apts with
    | none => rw [hcands] at h; cases h
    | some cands =>
      rw [hcands] at h
      cases h
      refine ⟨myApt, rfl, fun e he => ?_⟩
      have hes : e ∈ List.insertionSort rangeLE cands :=
        (List.take_sublist _ _).mem he
      have hec : e ∈ cands :=
        (List.perm_insertionSort rangeLE cands).mem_iff.mp hes
      rw [candidates_eq_filterMap geod myApt.location apts cands hcands,
        List.mem_filterMap] at hec
      obtain ⟨x, hx, hfx⟩ := hec
      cases hu : usableLength x with
      | none => rw [hu] at hfx; cases hfx
      | some l =>
        rw [hu] at hfx
        simp only at hfx
        by_cases hcond : 8000 ≤ l ∧ (geod myApt.location x.location).dist / 1852 < 1000
        · rw [if_pos hcond] at hfx
          cases hfx
          have hb := normAz_bounds (haz myApt.location x.location).1
            (haz myApt.location x.location).2
          exact ⟨hx, rfl, rfl, hb.1, hb.2⟩
        · rw [if_neg hcond] at hfx; cases hfx

/-- C4 counterexample: with a one-facility catalog the origin itself is a
kept candidate — the query returns the origin annotated with its own bearing
and zero range, where the claim's candidate set ("every facility other than
the origin") would have produced an empty result. -/
theorem nearestApts_origin_included_cex :
    nearestApts geodW [aptOriginW] "KAAA" 20 = .ok [(aptOriginW, 10, 0)] ∧
      aptOriginW.icao_ident = "KAAA" := by
  constructor
  · have hfind : List.find? (fun a => a.icao_ident == "KAAA") [aptOriginW] =
        some aptOriginW := by decide
    have h9 : usableLength aptOriginW = some 9000 := by decide
    have hcands : candidates geodW aptOriginW.location [aptOriginW] =
        some [(aptOriginW, 10, 0)] := by
      simp only [candidates, h9, geodW]
      norm_num [normAz]
    simp only [nearestApts, hfind, hcands]
    norm_num [List.insertionSort, List.orderedInsert]
  · decide

/-- C4 witness: the bearing/range law applied to a concrete catalog and a
solver stub with azimuths in range. -/
theorem nearestApts_bearing_range_spec_witness :
    ∃ myApt, [aptOriginW].find? (fun a => a.icao_ident == "KAAA") = some myApt ∧
      ∀ e ∈ [(aptOriginW, (10 : ℚ), (0 : ℚ))], e.1 ∈ [aptOriginW] ∧
        e.2.2 = (geodW myApt.location e.1.location).dist / 1852 ∧
        e.2.1 = normAz (geodW myApt.location e.1.location).fwdAz ∧
        0 ≤ e.2.1 ∧ e.2.1 < 360 :=
  nearestApts_bearing_range_spec geodW [aptOriginW] "KAAA" 1 [(aptOriginW, 10, 0)]
    (fun _ _ => by norm_num [geodW])
    (by
      have hfind : List.find? (fun a => a.icao_ident == "KAAA") [aptOriginW] =
          some aptOriginW := by decide
      have h9 : usableLength aptOriginW = some 9000 := by decide
      have hcands : candidates geodW aptOriginW.location [aptOriginW] =
          some [(aptOriginW, 10, 0)] := by
        simp only [candidates, h9, geodW]
        norm_num [normAz]
      simp only [nearestApts, hfind, hcands]
      norm_num [List.insertionSort, List.orderedInsert])

/-! ## Claim C10: totality of the query under length-parse preconditions -/

/-- C10: the query is total only when every non-water, non-turf runway
length in the catalog parses as a decimal integer.  A single such runway
with a blank or non-numeric length field makes the whole query fail with the
conversion error — the runway is not skipped — while a resolvable origin
plus all-parsable lengths guarantee a successful result. -/
theorem nearestApts_length_total_spec (geod : ℚ × ℚ → ℚ × ℚ → GeodResult)
    (apts : List Airport) (aptID : String) (num : ℕ) :
    ((∃ a ∈ apts, ∃ r ∈ a.rwys, r.surface ≠ "WATER" ∧ r.surface ≠ "TURF" ∧
        pyInt r.length = none) →
      (∀ res, nearestApts geod apts aptID num ≠ .ok res) ∧
      ((apts.find? (fun a => a.icao_ident == aptID)).isSome →
        nearestApts geod apts aptID num = .error .valueError)) ∧
    ((apts.find? (fun a => a.icao_ident == aptID)).isSome →
      (∀ a ∈ apts, ∀ r ∈ a.rwys, r.surface ≠ "WATER" → r.surface ≠ "TURF" →
        (pyInt r.length).isSome) →
      ∃ res, nearestApts geod apts aptID num = .ok res) := by
  constructor
  · intro hbad
    have hbadu : ∃ a ∈ apts, usableLength a = none := by
      obtain ⟨a, ha, r, hr, hw, ht, hn⟩ := hbad
      exact ⟨a, ha, (usableLengthAux_eq_none_iff a.rwys 0).mpr ⟨r, hr, hw, ht, hn⟩⟩
    have hcnone : ∀ myLoc, candidates geod myLoc apts = none :=
      fun myLoc => (candidates_eq_none_iff geod myLoc apts).mpr hbadu
    cases hfind : apts.find? (fun a => a.icao_ident == aptID) with
    | none =>
      constructor
      · intro res hok
        rw [nearestApts, hfind] at hok
        cases hok
      · intro hsome
        simp at hsome
    | some myApt =>
      have heq : nearestApts geod apts aptID num = .error .valueError := by
        rw [nearestApts, hfind]
        show (match candidates geod myApt.location apts with
            | none => Except.error QueryError.valueError
            | some cands =>
              Except.ok (List.take (min num (List.insertionSort rangeLE cands).length)
                (List.insertionSort rangeLE cands))) =
          Except.error QueryError.valueError
        rw [hcnone myApt.location]
      refine ⟨fun res hok => ?_, fun _ => heq⟩
      rw [heq] at hok
      cases hok
  · intro hsome hall
    obtain ⟨myApt, hfind⟩ := Option.isSome_iff_exists.mp hsome
    have hcs : candidates geod myApt.location apts ≠ none := by
      rw [Ne, candidates_eq_none_iff]
      rintro ⟨a, ha, hanone⟩
      obtain ⟨r, hr, hw, ht, hn⟩ := (usableLengthAux_eq_none_iff a.rwys 0).mp hanone
      have hps := hall a ha r hr hw ht
      rw [hn] at hps
      cases hps
    obtain ⟨cands, hcands⟩ := Option.ne_none_iff_exists.mp hcs
    refine ⟨List.take (min num (List.insertionSort rangeLE cands).length)
      (List.insertionSort rangeLE cands), ?_⟩
    rw [nearestApts, hfind]
    show (match candidates geod myApt.location apts with
        | none => Except.error QueryError.valueError
        | some cands =>
          Except.ok (List.take (min num (List.insertionSort rangeLE cands).length)
            (List.insertionSort rangeLE cands))) = _
    rw [← hcands]

/-- C10 witness: a catalog whose second facility has an asphalt runway with
a blank length field; the query for the resolvable origin dies with the
conversion error. -/
theorem nearestApts_length_total_spec_witness :
    nearestApts geodW [aptOriginW, aptBadW] "KAAA" 5 = .error .valueError :=
  ((nearestApts_length_total_spec geodW [aptOriginW, aptBadW] "KAAA" 5).1
    (by decide)).2 (by decide)

/-! ## Claim C3: origin resolution of `AvData.nearest_airports` -/

/-- C3: the origin identifier is resolved by exact case-insensitive
identifier match — a returned facility is in the catalog and matches the
query up to case — and when no facility matches, the operation fails with
the typed not-found error (never a silently empty result). -/
theorem avResolveOrigin_spec (airports : List Airport) (icao : String) :
    (∀ apt, avResolveOrigin airports icao = .ok apt →
      apt ∈ airports ∧ pyUpper apt.icao_ident = pyUpper icao) ∧
    ((∀ apt ∈ airports, pyUpper apt.icao_ident ≠ pyUpper icao) ↔
      avResolveOrigin airports icao = .error (.notFound icao)) := by
  constructor
  · intro apt hok
    rw [avResolveOrigin] at hok
    cases hfind : airports.find? (fun a => pyUpper a.icao_ident == pyUpper icao) with
    | none => rw [hfind] at hok; cases hok
    | some b =>
      rw [hfind] at hok
      replace hok : Except.ok (ε := AvDataError) b = Except.ok apt := hok
      cases hok
      exact ⟨List.mem_of_find?_eq_some hfind, by simpa using List.find?_some hfind⟩
  · constructor
    · intro hall
      have hnone : airports.find? (fun a => pyUpper a.icao_ident == pyUpper icao) =
          none :=
        List.find?_eq_none.mpr (fun x hx => by simpa using hall x hx)
      rw [avResolveOrigin, hnone]
    · intro herr apt hapt heq
      rw [avResolveOrigin] at herr
      cases hfind : airports.find? (fun a => pyUpper a.icao_ident == pyUpper icao) with
      | none =>
        have := List.find?_eq_none.mp hfind apt hapt
        simp [heq] at this
      | some b => rw [hfind] at herr; cases herr

/-- C3 witness: a lower-case query identifier resolves to the upper-case
catalog entry. -/
theorem avResolveOrigin_spec_witness :
    aptOriginW ∈ [aptOriginW] ∧ pyUpper aptOriginW.icao_ident = pyUpper "kaaa" :=
  (avResolveOrigin_spec [aptOriginW] "kaaa").1 aptOriginW (by rfl)
